import Mathlib

/-!
# Geo helpers of miniredis (`geo.go`)

A shallow embedding of the distance engine of `geo.go` in exact arithmetic:
a `float64` is read as a real number, `math.Pi` as `Real.pi`, and
`math.Sin`, `math.Cos`, `math.Sqrt`, `math.Asin`, `math.Abs` as the
corresponding real functions.  `math.Pow(x, 2)` is the square `x ^ 2`.
Rounding, infinities and NaN are outside this model.

Go's `math.Sqrt` and `math.Asin` return NaN outside `[0, ∞)` and `[-1, 1]`;
`Real.sqrt` and `Real.arcsin` are total and agree with them inside these
domains.  In exact arithmetic the value handed to `math.Asin` never leaves
`[0, 1]` (lemma `distanceH_mem`) and is exactly `1` for antipodal points
(lemma `distanceH_antipodal`).  The `float64` value can round above `1`
there, and the code, which does not clamp it, then returns NaN: an effect of
rounding that this model does not show.
-/

namespace Miniredis

noncomputable section

/-- The constant of `geo.go` line 11: the radius of the earth in meters. -/
def EarthRadius : ℝ := 6372797.560856

/-- Translation of `func deg2rad(d float64) float64`. -/
def deg2rad (d : ℝ) : ℝ :=
  d * Real.pi / 180.0

/-- Translation of `func rad2deg(r float64) float64`. -/
def rad2deg (r : ℝ) : ℝ :=
  180.0 * r / Real.pi

/-- Translation of `func hsin(theta float64) float64`, the haversine
`math.Pow(math.Sin(theta/2), 2)`. -/
def hsin (theta : ℝ) : ℝ :=
  (Real.sin (theta / 2)) ^ 2

/-- The local `h` of `distance` (line 55), as a function of the four
arguments of `distance` in degrees. -/
def distanceH (lat1 lon1 lat2 lon2 : ℝ) : ℝ :=
  let la1 := lat1 * Real.pi / 180
  let lo1 := lon1 * Real.pi / 180
  let la2 := lat2 * Real.pi / 180
  let lo2 := lon2 * Real.pi / 180
  hsin (la2 - la1) + Real.cos la1 * Real.cos la2 * hsin (lo2 - lo1)

/-- Translation of `func distance(lat1, lon1, lat2, lon2 float64) float64`. -/
def distance (lat1 lon1 lat2 lon2 : ℝ) : ℝ :=
  let earth : ℝ := 6372797.560856
  let h := distanceH lat1 lon1 lat2 lon2
  2 * earth * Real.arcsin (Real.sqrt h)

/-- Translation of `func geohashGetLatDistance(lat1d, lat2d float64) float64`. -/
def geohashGetLatDistance (lat1d lat2d : ℝ) : ℝ :=
  EarthRadius * |deg2rad lat2d - deg2rad lat1d|

/-- Translation of
`func geohashGetDistance(lon1d, lat1d, lon2d, lat2d float64) float64`. -/
def geohashGetDistance (lon1d lat1d lon2d lat2d : ℝ) : ℝ :=
  let lon1r := deg2rad lon1d
  let lon2r := deg2rad lon2d
  let v := Real.sin ((lon2r - lon1r) / 2)
  if v = 0 then
    geohashGetLatDistance lat1d lat2d
  else
    let lat1r := deg2rad lat1d
    let lat2r := deg2rad lat2d
    let u := Real.sin ((lat2r - lat1r) / 2)
    let a := u * u + Real.cos lat1r * Real.cos lat2r * v * v
    2.0 * EarthRadius * Real.arcsin (Real.sqrt a)

/-- Translation of `func geohashGetDistanceIfInRectangle(widthM, heightM,
x1, y1, x2, y2 float64) (float64, bool)`: `(x1, y1)` is the center of the
box and `(x2, y2)` the searched point. -/
def geohashGetDistanceIfInRectangle (widthM heightM x1 y1 x2 y2 : ℝ) : ℝ × Bool :=
  let latDistance := geohashGetLatDistance y2 y1
  if latDistance > heightM / 2 then
    (0, false)
  else
    let lonDistance := geohashGetDistance x2 y2 x1 y2
    if lonDistance > widthM / 2 then
      (0, false)
    else
      (geohashGetDistance x1 y1 x2 y2, true)

/-- The local `a` of `geohashGetDistance` (line 104), the value whose root
is handed to `math.Asin` on the branch `v != 0`, as a function of the four
arguments of `geohashGetDistance` in degrees. -/
def geohashGetDistanceA (lon1d lat1d lon2d lat2d : ℝ) : ℝ :=
  let lon1r := deg2rad lon1d
  let lon2r := deg2rad lon2d
  let v := Real.sin ((lon2r - lon1r) / 2)
  let lat1r := deg2rad lat1d
  let lat2r := deg2rad lat2d
  let u := Real.sin ((lat2r - lat1r) / 2)
  u * u + Real.cos lat1r * Real.cos lat2r * v * v

end

/-! ## Auxiliary facts -/

lemma hsin_zero : hsin 0 = 0 := by
  simp [hsin]

lemma hsin_neg (t : ℝ) : hsin (-t) = hsin t := by
  simp [hsin, neg_div, Real.sin_neg]

lemma hsin_nonneg (t : ℝ) : 0 ≤ hsin t := by
  unfold hsin; positivity

lemma sqrt_hsin (t : ℝ) : Real.sqrt (hsin t) = |Real.sin (t / 2)| := by
  unfold hsin
  exact Real.sqrt_sq_eq_abs _

/-- For a half angle of `[-π/2, π/2]` the inverse sine of the root of the
haversine gives back the absolute half angle. -/
lemma arcsin_sqrt_hsin {t : ℝ} (h1 : -Real.pi ≤ t) (h2 : t ≤ Real.pi) :
    Real.arcsin (Real.sqrt (hsin t)) = |t| / 2 := by
  rw [sqrt_hsin]
  rcases le_total 0 t with ht | ht
  · have hs : 0 ≤ Real.sin (t / 2) :=
      Real.sin_nonneg_of_nonneg_of_le_pi (by linarith) (by linarith [Real.pi_pos])
    rw [abs_of_nonneg hs, abs_of_nonneg ht]
    exact Real.arcsin_sin (by linarith [Real.pi_pos]) (by linarith)
  · have hs : Real.sin (t / 2) ≤ 0 :=
      Real.sin_nonpos_of_nonnpos_of_neg_pi_le (by linarith) (by linarith [Real.pi_pos])
    rw [abs_of_nonpos hs, abs_of_nonpos ht, ← Real.sin_neg]
    have : -(t / 2) = -t / 2 := by ring
    rw [this]
    exact Real.arcsin_sin (by linarith [Real.pi_pos]) (by linarith)

/-- The value of `distance` for one degree of longitude on the equator. -/
lemma distance_equator_value :
    distance 0 0 0 1 = 6372797.560856 * Real.pi / 180 := by
  have h : distanceH 0 0 0 1 = hsin (Real.pi / 180) := by
    simp [distanceH, hsin_zero]
  have a : Real.arcsin (Real.sqrt (hsin (Real.pi / 180))) = |Real.pi / 180| / 2 :=
    arcsin_sqrt_hsin (by linarith [Real.pi_pos]) (by linarith [Real.pi_pos])
  have p : |Real.pi / 180| = Real.pi / 180 := abs_of_nonneg (by positivity)
  simp only [distance, h, a, p]
  ring

/-- With equal longitudes the local `h` of `distance` is the haversine of the
latitude difference. -/
lemma distanceH_same_lon (lat1 lon lat2 : ℝ) :
    distanceH lat1 lon lat2 lon = hsin (lat2 * Real.pi / 180 - lat1 * Real.pi / 180) := by
  simp [distanceH, hsin_zero]

/-- The haversine written with the cosine: `hsin t = (1 - cos t) / 2`. -/
lemma hsin_eq_cos (t : ℝ) : hsin t = (1 - Real.cos t) / 2 := by
  unfold hsin
  rw [Real.sin_sq_eq_half_sub]
  have : 2 * (t / 2) = t := by ring
  rw [this]
  ring

/-- The haversine grows with the absolute angle up to `π`. -/
lemma hsin_le_hsin {s t : ℝ} (hst : |s| ≤ |t|) (ht : |t| ≤ Real.pi) :
    hsin s ≤ hsin t := by
  rw [hsin_eq_cos, hsin_eq_cos, ← Real.cos_abs s, ← Real.cos_abs t]
  have := Real.cos_le_cos_of_nonneg_of_le_pi (abs_nonneg s) ht hst
  linarith

/-- The result of `distance` grows with its local `h`. -/
lemma distance_le_of_distanceH_le {a1 b1 a2 b2 c1 d1 c2 d2 : ℝ}
    (h : distanceH a1 b1 a2 b2 ≤ distanceH c1 d1 c2 d2) :
    distance a1 b1 a2 b2 ≤ distance c1 d1 c2 d2 := by
  simp only [distance]
  apply mul_le_mul_of_nonneg_left _ (by norm_num)
  exact Real.monotone_arcsin (Real.sqrt_le_sqrt h)

/-- Degrees to radians, multiplied out. -/
lemma rad_sub (x y : ℝ) :
    x * Real.pi / 180 - y * Real.pi / 180 = (x - y) * (Real.pi / 180) := by
  ring

/-- A bound in degrees carries over to radians. -/
lemma abs_rad_le {x c : ℝ} (h : |x| ≤ c) :
    |x * (Real.pi / 180)| ≤ c * (Real.pi / 180) := by
  rw [abs_mul, abs_of_pos (by positivity : (0 : ℝ) < Real.pi / 180)]
  exact mul_le_mul_of_nonneg_right h (by positivity)

/-- The local `h` of `distance` on the equator, from longitude `-180`. -/
lemma distanceH_equator (lon2 : ℝ) :
    distanceH 0 (-180) 0 lon2 = hsin (lon2 * Real.pi / 180 + Real.pi) := by
  simp only [distanceH]
  have e : lon2 * Real.pi / 180 - -180 * Real.pi / 180 = lon2 * Real.pi / 180 + Real.pi := by
    ring
  rw [e]
  simp [hsin_zero]

/-- The haversine of a half turn is `1`. -/
lemma hsin_pi : hsin Real.pi = 1 := by
  simp [hsin]

/-- The haversine of a full turn is `0`. -/
lemma hsin_two_pi : hsin (Real.pi + Real.pi) = 0 := by
  have e : (Real.pi + Real.pi) / 2 = Real.pi := by ring
  simp [hsin, e]

/-- The haversine of a quarter turn is `1 / 2`. -/
lemma hsin_pi_div_two : hsin (Real.pi / 2) = 1 / 2 := by
  rw [hsin_eq_cos, Real.cos_pi_div_two]
  norm_num

/-- The haversine is at most `1 / 2` up to a quarter turn. -/
lemma hsin_le_half {t : ℝ} (ht : |t| ≤ Real.pi / 2) : hsin t ≤ 1 / 2 := by
  rw [hsin_eq_cos, ← Real.cos_abs t]
  have := Real.cos_nonneg_of_neg_pi_div_two_le_of_le
    (by linarith [abs_nonneg t, Real.pi_pos] : -(Real.pi / 2) ≤ |t|) ht
  linarith

/-- The cosine shrinks as the absolute angle grows, up to `π`. -/
lemma cos_le_cos_of_abs_le {s t : ℝ} (hst : |s| ≤ |t|) (ht : |t| ≤ Real.pi) :
    Real.cos t ≤ Real.cos s := by
  rw [← Real.cos_abs s, ← Real.cos_abs t]
  exact Real.cos_le_cos_of_nonneg_of_le_pi (abs_nonneg s) ht hst

/-- The cosine of a latitude of `[-90, 90]` degrees is not negative. -/
lemma cos_lat_nonneg {lat : ℝ} (h : -90 ≤ lat ∧ lat ≤ 90) :
    0 ≤ Real.cos (lat * Real.pi / 180) := by
  apply Real.cos_nonneg_of_neg_pi_div_two_le_of_le
  · have := mul_le_mul_of_nonneg_right h.1 (by positivity : (0 : ℝ) ≤ Real.pi / 180)
    linarith
  · have := mul_le_mul_of_nonneg_right h.2 (by positivity : (0 : ℝ) ≤ Real.pi / 180)
    linarith

/-- The absolute difference of two values of `[-c, c]` is at most `2 * c`. -/
lemma abs_sub_le_of_mem {x y c : ℝ} (hx : -c ≤ x ∧ x ≤ c) (hy : -c ≤ y ∧ y ≤ c) :
    |y - x| ≤ 2 * c :=
  abs_le.mpr ⟨by linarith [hx.2, hy.1], by linarith [hx.1, hy.2]⟩

/-- When the first latitude is a pole or the longitudes agree, the local `h`
of `distance` is the haversine of the latitude difference. -/
lemma distanceH_of_mul_eq_zero {lat1 lon1 lat2 lon2 : ℝ}
    (h : Real.cos (lat1 * Real.pi / 180) *
      hsin (lon2 * Real.pi / 180 - lon1 * Real.pi / 180) = 0) :
    distanceH lat1 lon1 lat2 lon2 = hsin (lat2 * Real.pi / 180 - lat1 * Real.pi / 180) := by
  simp only [distanceH]
  have e : Real.cos (lat1 * Real.pi / 180) * Real.cos (lat2 * Real.pi / 180) *
      hsin (lon2 * Real.pi / 180 - lon1 * Real.pi / 180) =
      Real.cos (lat1 * Real.pi / 180) * hsin (lon2 * Real.pi / 180 - lon1 * Real.pi / 180) *
        Real.cos (lat2 * Real.pi / 180) := by ring
  rw [e, h]
  ring

/-- Latitude monotonicity of the local `h` of `distance` when the
longitude term drops out. -/
lemma distanceH_lat_mono_of_mul_eq_zero {lat1 lon1 lat2 lat2' lon2 : ℝ}
    (h1 : -90 ≤ lat1 ∧ lat1 ≤ 90) (h2' : -90 ≤ lat2' ∧ lat2' ≤ 90)
    (hd : |lat2 - lat1| ≤ |lat2' - lat1|)
    (h : Real.cos (lat1 * Real.pi / 180) *
      hsin (lon2 * Real.pi / 180 - lon1 * Real.pi / 180) = 0) :
    distanceH lat1 lon1 lat2 lon2 ≤ distanceH lat1 lon1 lat2' lon2 := by
  rw [distanceH_of_mul_eq_zero h, distanceH_of_mul_eq_zero h, rad_sub, rad_sub]
  apply hsin_le_hsin
  · rw [abs_mul, abs_mul]
    exact mul_le_mul_of_nonneg_right hd (abs_nonneg _)
  · have := abs_rad_le (abs_sub_le_of_mem h1 h2')
    linarith

/-- Latitude monotonicity of the local `h` of `distance` from a point of the
equator, for a longitude delta of at most `90` degrees. -/
lemma distanceH_lat_mono_equator {lon1 lat2 lat2' lon2 : ℝ}
    (h2' : -90 ≤ lat2' ∧ lat2' ≤ 90)
    (hd : |lat2 - 0| ≤ |lat2' - 0|) (hl : |lon2 - lon1| ≤ 90) :
    distanceH 0 lon1 lat2 lon2 ≤ distanceH 0 lon1 lat2' lon2 := by
  simp only [distanceH, rad_sub]
  have z : (0 : ℝ) * Real.pi / 180 = 0 := by ring
  have m : ∀ x : ℝ, x * Real.pi / 180 = x * (Real.pi / 180) := fun x => by ring
  rw [z, Real.cos_zero, m lat2, m lat2', hsin_eq_cos ((lat2 - 0) * _),
    hsin_eq_cos ((lat2' - 0) * _), sub_zero, sub_zero]
  have hs : hsin ((lon2 - lon1) * (Real.pi / 180)) ≤ 1 / 2 := by
    apply hsin_le_half
    have := abs_rad_le hl
    linarith
  rw [sub_zero, sub_zero] at hd
  have hc : Real.cos (lat2' * (Real.pi / 180)) ≤ Real.cos (lat2 * (Real.pi / 180)) := by
    apply cos_le_cos_of_abs_le
    · rw [abs_mul, abs_mul]
      exact mul_le_mul_of_nonneg_right hd (abs_nonneg _)
    · have := abs_rad_le (abs_le.mpr h2')
      linarith [Real.pi_pos]
  nlinarith [mul_nonneg (sub_nonneg.mpr hc) (sub_nonneg.mpr hs)]

/-- The latitude-only distance of a latitude to itself is `0`. -/
lemma geohashGetLatDistance_self (lat : ℝ) : geohashGetLatDistance lat lat = 0 := by
  simp [geohashGetLatDistance]

/-- With equal longitudes `geohashGetDistance` takes the `v == 0` branch. -/
lemma geohashGetDistance_same_lon (lon lat1 lat2 : ℝ) :
    geohashGetDistance lon lat1 lon lat2 = geohashGetLatDistance lat1 lat2 := by
  simp [geohashGetDistance]

/-- The latitude-only distance from latitude `0`. -/
lemma geohashGetLatDistance_zero_right (lat : ℝ) :
    geohashGetLatDistance lat 0 = 6372797.560856 * (|lat| * (Real.pi / 180)) := by
  simp only [geohashGetLatDistance, deg2rad, EarthRadius]
  have e : (0 : ℝ) * Real.pi / 180.0 - lat * Real.pi / 180.0 = -(lat * (Real.pi / 180)) := by
    ring
  rw [e, abs_neg, abs_mul, abs_of_pos (by positivity : (0 : ℝ) < Real.pi / 180)]

/-- The boolean of `geohashGetDistanceIfInRectangle` in terms of its two
checks. -/
lemma rectangle_snd_iff (widthM heightM x1 y1 x2 y2 : ℝ) :
    (geohashGetDistanceIfInRectangle widthM heightM x1 y1 x2 y2).2 = true ↔
      geohashGetLatDistance y2 y1 ≤ heightM / 2 ∧
        geohashGetDistance x2 y2 x1 y2 ≤ widthM / 2 := by
  simp only [geohashGetDistanceIfInRectangle]
  split_ifs with a b
  · simp [not_le.mpr a]
  · simp [not_le.mpr b]
  · simp [not_lt.mp a, not_lt.mp b]

/-- The fixture of the rectangle check: center `(0, 0)`, box `200000` by
`200000`, point at longitude `0` and latitude `0.1`. -/
lemma rectangle_fixture_inside :
    (geohashGetDistanceIfInRectangle 200000 200000 0 0 0 0.1).2 = true := by
  rw [rectangle_snd_iff, geohashGetDistance_same_lon, geohashGetLatDistance_self,
    geohashGetLatDistance_zero_right]
  have := Real.pi_lt_four
  have := Real.pi_pos
  constructor
  · rw [abs_of_nonneg (by norm_num)]
    nlinarith
  · norm_num

/-- In `deg2rad` the constant `180.0` is `180`. -/
lemma deg2rad_eq (d : ℝ) : deg2rad d = d * Real.pi / 180 := by
  unfold deg2rad
  norm_num

/-- The haversine is at most `1`. -/
lemma hsin_le_one (t : ℝ) : hsin t ≤ 1 := by
  unfold hsin
  exact Real.sin_sq_le_one _

/-- The haversine term is a mean of `hsin (b - a)` and `1 - hsin (a + b)`,
weighted by the haversine `s` of the longitude difference. -/
lemma haversine_term_eq (a b s : ℝ) :
    hsin (b - a) + Real.cos a * Real.cos b * s =
      (1 - s) * ((1 - Real.cos (b - a)) / 2) + s * ((1 + Real.cos (a + b)) / 2) := by
  rw [hsin_eq_cos, Real.cos_sub, Real.cos_add]
  ring

/-- The haversine term lies in `[0, 1]` for a weight `s` of `[0, 1]`. -/
lemma haversine_term_mem (a b s : ℝ) (hs0 : 0 ≤ s) (hs1 : s ≤ 1) :
    0 ≤ hsin (b - a) + Real.cos a * Real.cos b * s ∧
      hsin (b - a) + Real.cos a * Real.cos b * s ≤ 1 := by
  rw [haversine_term_eq]
  have c1 := Real.cos_le_one (b - a)
  have c2 := Real.neg_one_le_cos (b - a)
  have c3 := Real.cos_le_one (a + b)
  have c4 := Real.neg_one_le_cos (a + b)
  have hs : 0 ≤ 1 - s := by linarith
  constructor
  · have t1 := mul_nonneg hs (by linarith : 0 ≤ (1 - Real.cos (b - a)) / 2)
    have t2 := mul_nonneg hs0 (by linarith : 0 ≤ (1 + Real.cos (a + b)) / 2)
    linarith
  · have t1 := mul_le_mul_of_nonneg_left (by linarith : (1 - Real.cos (b - a)) / 2 ≤ 1) hs
    have t2 := mul_le_mul_of_nonneg_left (by linarith : (1 + Real.cos (a + b)) / 2 ≤ 1) hs0
    linarith

/-- In exact arithmetic the local `h` of `distance` lies in `[0, 1]`. -/
lemma distanceH_mem (lat1 lon1 lat2 lon2 : ℝ) :
    0 ≤ distanceH lat1 lon1 lat2 lon2 ∧ distanceH lat1 lon1 lat2 lon2 ≤ 1 := by
  simp only [distanceH]
  exact haversine_term_mem _ _ _ (hsin_nonneg _) (hsin_le_one _)

/-- The local `a` of `geohashGetDistance` is the local `h` of `distance` on
the same two points. -/
lemma geohashGetDistanceA_eq (lon1d lat1d lon2d lat2d : ℝ) :
    geohashGetDistanceA lon1d lat1d lon2d lat2d = distanceH lat1d lon1d lat2d lon2d := by
  simp only [geohashGetDistanceA, distanceH, hsin, deg2rad_eq]
  ring

/-- The branches of `geohashGetDistance`, with the local `a` named. -/
lemma geohashGetDistance_eq (lon1d lat1d lon2d lat2d : ℝ) :
    geohashGetDistance lon1d lat1d lon2d lat2d =
      if Real.sin ((deg2rad lon2d - deg2rad lon1d) / 2) = 0 then
        geohashGetLatDistance lat1d lat2d
      else
        2.0 * EarthRadius *
          Real.arcsin (Real.sqrt (geohashGetDistanceA lon1d lat1d lon2d lat2d)) :=
  rfl

/-- When the local `h` of `distance` is the haversine of the latitude
difference, as for longitudes whose haversine vanishes, `distance` is the
latitude-only distance for latitudes of `[-90, 90]`. -/
lemma distance_eq_latDistance_of_distanceH {lat1 lon1 lat2 lon2 : ℝ}
    (h1 : -90 ≤ lat1 ∧ lat1 ≤ 90) (h2 : -90 ≤ lat2 ∧ lat2 ≤ 90)
    (h : distanceH lat1 lon1 lat2 lon2 =
      hsin (lat2 * Real.pi / 180 - lat1 * Real.pi / 180)) :
    distance lat1 lon1 lat2 lon2 = geohashGetLatDistance lat1 lat2 := by
  have hr := abs_rad_le (abs_sub_le_of_mem h1 h2)
  have hpi : (2 : ℝ) * 90 * (Real.pi / 180) = Real.pi := by ring
  rw [hpi] at hr
  have hr2 := abs_le.mp hr
  simp only [distance, h, rad_sub, geohashGetLatDistance, deg2rad_eq, EarthRadius]
  rw [arcsin_sqrt_hsin hr2.1 hr2.2]
  ring

/-- The latitude-only distance is not negative. -/
lemma geohashGetLatDistance_nonneg (lat1d lat2d : ℝ) :
    0 ≤ geohashGetLatDistance lat1d lat2d := by
  unfold geohashGetLatDistance EarthRadius
  positivity

/-- The result of `geohashGetDistance` is not negative. -/
lemma geohashGetDistance_nonneg (lon1d lat1d lon2d lat2d : ℝ) :
    0 ≤ geohashGetDistance lon1d lat1d lon2d lat2d := by
  rw [geohashGetDistance_eq]
  split_ifs
  · exact geohashGetLatDistance_nonneg _ _
  · have := Real.arcsin_nonneg.mpr
      (Real.sqrt_nonneg (geohashGetDistanceA lon1d lat1d lon2d lat2d))
    unfold EarthRadius
    positivity

/-- The result of `geohashGetDistanceIfInRectangle` when both checks pass. -/
lemma rectangle_eq_of_le {widthM heightM x1 y1 x2 y2 : ℝ}
    (hl : geohashGetLatDistance y2 y1 ≤ heightM / 2)
    (hw : geohashGetDistance x2 y2 x1 y2 ≤ widthM / 2) :
    geohashGetDistanceIfInRectangle widthM heightM x1 y1 x2 y2 =
      (geohashGetDistance x1 y1 x2 y2, true) := by
  simp only [geohashGetDistanceIfInRectangle]
  rw [if_neg (not_lt.mpr hl), if_neg (not_lt.mpr hw)]

/-- The result of `geohashGetDistanceIfInRectangle` when a check fails. -/
lemma rectangle_eq_of_lt {widthM heightM x1 y1 x2 y2 : ℝ}
    (h : heightM / 2 < geohashGetLatDistance y2 y1 ∨
      widthM / 2 < geohashGetDistance x2 y2 x1 y2) :
    geohashGetDistanceIfInRectangle widthM heightM x1 y1 x2 y2 = (0, false) := by
  simp only [geohashGetDistanceIfInRectangle]
  split_ifs with a b
  · rfl
  · rfl
  · rcases h with h | h
    · exact absurd h a
    · exact absurd h b

/-- The latitude-only distance between the latitudes `0.1` and `0` is below
`100000` meters. -/
lemma latDistance_fixture_le : geohashGetLatDistance 0.1 0 ≤ 100000 := by
  rw [geohashGetLatDistance_zero_right, abs_of_nonneg (by norm_num)]
  have := Real.pi_lt_four
  nlinarith

/-- In exact arithmetic the local `h` of `distance` is exactly `1` for
antipodal points, the edge of the domain of the inverse sine. -/
lemma distanceH_antipodal (lat lon : ℝ) : distanceH lat lon (-lat) (lon + 180) = 1 := by
  simp only [distanceH]
  have e1 : -lat * Real.pi / 180 - lat * Real.pi / 180 = -(2 * (lat * Real.pi / 180)) := by
    ring
  have e2 : (lon + 180) * Real.pi / 180 - lon * Real.pi / 180 = Real.pi := by ring
  have e3 : -lat * Real.pi / 180 = -(lat * Real.pi / 180) := by ring
  rw [e1, e2, hsin_neg, hsin_pi, e3, Real.cos_neg]
  have e4 : hsin (2 * (lat * Real.pi / 180)) = Real.sin (lat * Real.pi / 180) ^ 2 := by
    unfold hsin
    congr 2
    ring
  rw [e4]
  have := Real.sin_sq_add_cos_sq (lat * Real.pi / 180)
  nlinarith

/-! ## Claims about `distance` -/

/-- C1: for every point `(lat, lon)`, `distance lat lon lat lon` is exactly
`0`. -/
theorem distance_self (lat lon : ℝ) : distance lat lon lat lon = 0 := by
  simp [distance, distanceH, hsin_zero]

/-- C2: `distance` is symmetric: exchanging the two points leaves the result
unchanged. -/
theorem distance_symm (lat1 lon1 lat2 lon2 : ℝ) :
    distance lat1 lon1 lat2 lon2 = distance lat2 lon2 lat1 lon1 := by
  have e : distanceH lat1 lon1 lat2 lon2 = distanceH lat2 lon2 lat1 lon1 := by
    simp only [distanceH]
    rw [← hsin_neg (lat2 * Real.pi / 180 - lat1 * Real.pi / 180),
      ← hsin_neg (lon2 * Real.pi / 180 - lon1 * Real.pi / 180)]
    rw [neg_sub, neg_sub]
    ring
  simp only [distance, e]

/-- C3: one degree of longitude on the equator: `distance 0 0 0 1` equals
`EarthRadius * deg2rad 1`, that is `6372797.560856 * π / 180`. -/
theorem distance_equator_degree :
    distance 0 0 0 1 = EarthRadius * deg2rad 1 ∧
      distance 0 0 0 1 = 6372797.560856 * Real.pi / 180 := by
  refine ⟨?_, distance_equator_value⟩
  rw [distance_equator_value]
  simp only [EarthRadius, deg2rad]
  ring

/-- C4 (as stated, refuted): `distance 0 0 0 1` is not within `0.01` meters
of `111319.49`; that figure belongs to a sphere of radius `6378137`. -/
theorem distance_equator_not_111319 :
    ¬ |distance 0 0 0 1 - 111319.49| < 0.01 := by
  rw [distance_equator_value, abs_lt]
  rintro ⟨h, -⟩
  have := Real.pi_lt_d6
  norm_num at h
  linarith

/-- C4 (amended): `distance 0 0 0 1` is within `0.01` meters of `111226.30`,
the length of one degree on a sphere of radius `6372797.560856`. -/
theorem distance_equator_approx :
    |distance 0 0 0 1 - 111226.30| < 0.01 := by
  rw [distance_equator_value, abs_lt]
  have h1 := Real.pi_gt_d20
  have h2 := Real.pi_lt_d20
  constructor <;> norm_num <;> linarith

/-- C5: for latitudes of `[-90, 90]` and a common longitude, `distance`
equals the latitude-only formula `geohashGetLatDistance lat1 lat2`, which is
`EarthRadius * |deg2rad lat2 - deg2rad lat1|`. -/
theorem distance_eq_latDistance (lon lat1 lat2 : ℝ)
    (h1 : -90 ≤ lat1 ∧ lat1 ≤ 90) (h2 : -90 ≤ lat2 ∧ lat2 ≤ 90) :
    distance lat1 lon lat2 lon = geohashGetLatDistance lat1 lat2 ∧
      geohashGetLatDistance lat1 lat2 = EarthRadius * |deg2rad lat2 - deg2rad lat1| := by
  refine ⟨?_, rfl⟩
  have hb : |lat2 - lat1| ≤ 180 := abs_le.mpr ⟨by linarith [h1.2, h2.1], by linarith [h1.1, h2.2]⟩
  have hr := abs_rad_le hb
  have hpi : (180 : ℝ) * (Real.pi / 180) = Real.pi := by ring
  rw [hpi] at hr
  have hr2 := abs_le.mp hr
  simp only [distance, distanceH_same_lon, rad_sub, geohashGetLatDistance, deg2rad, EarthRadius]
  rw [arcsin_sqrt_hsin hr2.1 hr2.2]
  have e : lat2 * Real.pi / 180.0 - lat1 * Real.pi / 180.0 = (lat2 - lat1) * (Real.pi / 180) := by
    ring
  rw [e]
  ring

/-- Witness of C5 at longitude `30` and latitudes `-90` and `90`. -/
theorem distance_eq_latDistance_witness :
    distance (-90) 30 90 30 = geohashGetLatDistance (-90) 90 ∧
      geohashGetLatDistance (-90) 90 = EarthRadius * |deg2rad 90 - deg2rad (-90)| :=
  distance_eq_latDistance 30 (-90) 90 (by norm_num) (by norm_num)

/-- C6 (as stated, refuted): on the equator, from longitude `-180`, the
longitude delta grows from `180` to `360` degrees between the points at
longitude `0` and `180`, yet the distance falls from half the circumference
to `0`. -/
theorem distance_lon_mono_fails :
    ((-90 : ℝ) ≤ 0 ∧ (0 : ℝ) ≤ 90) ∧ ((-180 : ℝ) ≤ -180 ∧ (-180 : ℝ) ≤ 180) ∧
      ((-180 : ℝ) ≤ 0 ∧ (0 : ℝ) ≤ 180) ∧ ((-180 : ℝ) ≤ 180 ∧ (180 : ℝ) ≤ 180) ∧
      |(180 : ℝ) - -180| ≥ |(0 : ℝ) - -180| ∧
      ¬ distance 0 (-180) 0 180 ≥ distance 0 (-180) 0 0 := by
  refine ⟨by norm_num, by norm_num, by norm_num, by norm_num, by norm_num, ?_⟩
  have e1 : distanceH 0 (-180) 0 180 = 0 := by
    rw [distanceH_equator]
    have : (180 : ℝ) * Real.pi / 180 + Real.pi = Real.pi + Real.pi := by ring
    rw [this, hsin_two_pi]
  have e2 : distanceH 0 (-180) 0 0 = 1 := by
    rw [distanceH_equator]
    have : (0 : ℝ) * Real.pi / 180 + Real.pi = Real.pi := by ring
    rw [this, hsin_pi]
  simp only [distance, e1, e2, Real.sqrt_zero, Real.sqrt_one, Real.arcsin_zero,
    Real.arcsin_one, not_le, ge_iff_le]
  have := Real.pi_pos
  nlinarith

/-- C6 (amended): for latitudes of `[-90, 90]`, if the longitude delta grows
in absolute value and stays at most `180` degrees, the distance does not
decrease. -/
theorem distance_lon_mono (lat1 lon1 lat2 lon2 lon2' : ℝ)
    (h1 : -90 ≤ lat1 ∧ lat1 ≤ 90) (h2 : -90 ≤ lat2 ∧ lat2 ≤ 90)
    (hd : |lon2' - lon1| ≥ |lon2 - lon1|) (hb : |lon2' - lon1| ≤ 180) :
    distance lat1 lon1 lat2 lon2' ≥ distance lat1 lon1 lat2 lon2 := by
  apply distance_le_of_distanceH_le
  simp only [distanceH, rad_sub]
  have hc : 0 ≤ Real.cos (lat1 * Real.pi / 180) * Real.cos (lat2 * Real.pi / 180) :=
    mul_nonneg (cos_lat_nonneg h1) (cos_lat_nonneg h2)
  have hp : (0 : ℝ) < Real.pi / 180 := by positivity
  have hs : hsin ((lon2 - lon1) * (Real.pi / 180)) ≤ hsin ((lon2' - lon1) * (Real.pi / 180)) := by
    apply hsin_le_hsin
    · rw [abs_mul, abs_mul]
      exact mul_le_mul_of_nonneg_right hd (abs_nonneg _)
    · have := abs_rad_le hb
      linarith
  have := mul_le_mul_of_nonneg_left hs hc
  linarith

/-- Witness of C6 (amended): from `(10, 20)`, at latitude `30`, the point at
longitude `100` is at least as far as the point at longitude `50`. -/
theorem distance_lon_mono_witness :
    distance 10 20 30 100 ≥ distance 10 20 30 50 :=
  distance_lon_mono 10 20 30 50 100 (by norm_num) (by norm_num)
    (by norm_num [abs_of_nonneg]) (by norm_num [abs_of_nonneg])

/-- C7 (as stated, refuted): from `(0, 0)`, on the meridian `180`, the
latitude delta grows from `0` to `90` degrees between the points at latitude
`0` and `90`, yet the distance falls from half the circumference to a quarter
of it. -/
theorem distance_lat_mono_fails :
    ((-90 : ℝ) ≤ 0 ∧ (0 : ℝ) ≤ 90) ∧ ((-90 : ℝ) ≤ 90 ∧ (90 : ℝ) ≤ 90) ∧
      ((-180 : ℝ) ≤ 0 ∧ (0 : ℝ) ≤ 180) ∧ ((-180 : ℝ) ≤ 180 ∧ (180 : ℝ) ≤ 180) ∧
      |(90 : ℝ) - 0| ≥ |(0 : ℝ) - 0| ∧
      ¬ distance 0 0 90 180 ≥ distance 0 0 0 180 := by
  refine ⟨by norm_num, by norm_num, by norm_num, by norm_num, by norm_num, ?_⟩
  have e1 : distanceH 0 0 90 180 = 1 / 2 := by
    simp only [distanceH]
    have a : (90 : ℝ) * Real.pi / 180 - 0 * Real.pi / 180 = Real.pi / 2 := by ring
    have b : (90 : ℝ) * Real.pi / 180 = Real.pi / 2 := by ring
    rw [a, b, Real.cos_pi_div_two, hsin_pi_div_two]
    ring
  have e2 : distanceH 0 0 0 180 = 1 := by
    simp only [distanceH]
    have a : (180 : ℝ) * Real.pi / 180 - 0 * Real.pi / 180 = Real.pi := by ring
    have b : (0 : ℝ) * Real.pi / 180 = 0 := by ring
    rw [a, b, hsin_pi]
    simp [hsin_zero]
  simp only [distance, e1, e2, Real.sqrt_one, Real.arcsin_one, not_le, ge_iff_le]
  have hlt : Real.sqrt (1 / 2) < 1 := by
    rw [Real.sqrt_lt' (by norm_num)]
    norm_num
  have := Real.arcsin_lt_pi_div_two.mpr hlt
  nlinarith

/-- C7 (amended): for latitudes of `[-90, 90]`, if the latitude delta grows
in absolute value, the distance does not decrease, provided the two
longitudes are equal, or the first point is a pole, or the first point lies
on the equator and the longitude delta is at most `90` degrees. -/
theorem distance_lat_mono (lat1 lon1 lat2 lat2' lon2 : ℝ)
    (h1 : -90 ≤ lat1 ∧ lat1 ≤ 90) (_h2 : -90 ≤ lat2 ∧ lat2 ≤ 90)
    (h2' : -90 ≤ lat2' ∧ lat2' ≤ 90)
    (hd : |lat2' - lat1| ≥ |lat2 - lat1|)
    (hc : lon2 = lon1 ∨ lat1 = 90 ∨ lat1 = -90 ∨ (lat1 = 0 ∧ |lon2 - lon1| ≤ 90)) :
    distance lat1 lon1 lat2' lon2 ≥ distance lat1 lon1 lat2 lon2 := by
  apply distance_le_of_distanceH_le
  rcases hc with hc | hc | hc | ⟨hc, hl⟩
  · apply distanceH_lat_mono_of_mul_eq_zero h1 h2' hd
    rw [hc, sub_self, hsin_zero, mul_zero]
  · apply distanceH_lat_mono_of_mul_eq_zero h1 h2' hd
    have e : (90 : ℝ) * Real.pi / 180 = Real.pi / 2 := by ring
    rw [hc, e, Real.cos_pi_div_two, zero_mul]
  · apply distanceH_lat_mono_of_mul_eq_zero h1 h2' hd
    have e : (-90 : ℝ) * Real.pi / 180 = -(Real.pi / 2) := by ring
    rw [hc, e, Real.cos_neg, Real.cos_pi_div_two, zero_mul]
  · subst hc
    exact distanceH_lat_mono_equator h2' hd hl

/-- Witness of C7 (amended): from `(0, 20)` on the equator, on the meridian
`80`, the point at latitude `-60` is at least as far as the point at latitude
`30`. -/
theorem distance_lat_mono_witness :
    distance 0 20 (-60) 80 ≥ distance 0 20 30 80 :=
  distance_lat_mono 0 20 30 (-60) 80 (by norm_num) (by norm_num) (by norm_num)
    (by norm_num [abs_of_nonneg]) (Or.inr (Or.inr (Or.inr ⟨rfl, by norm_num [abs_of_nonneg]⟩)))

/-! ## Claims about `geohashGetDistanceIfInRectangle` -/

/-- C8: `geohashGetDistanceIfInRectangle` reports `true` exactly when the
latitude-only distance between point and center is at most `heightM / 2` and
the longitude distance, taken at the latitude of the point, is at most
`widthM / 2`; for the center `(0, 0)` and a box of `200000` by `200000` the
point at longitude `0`, latitude `0.1` is reported inside. -/
theorem rectangle_true_iff :
    (∀ widthM heightM centerLon centerLat pointLon pointLat : ℝ,
      (geohashGetDistanceIfInRectangle widthM heightM centerLon centerLat
          pointLon pointLat).2 = true ↔
        geohashGetLatDistance pointLat centerLat ≤ heightM / 2 ∧
          geohashGetDistance pointLon pointLat centerLon pointLat ≤ widthM / 2) ∧
      (geohashGetDistanceIfInRectangle 200000 200000 0 0 0 0.1).2 = true :=
  ⟨rectangle_snd_iff, rectangle_fixture_inside⟩

/-- C9: when `geohashGetDistanceIfInRectangle` reports `true` the returned
distance is `geohashGetDistance` between center and point; when it reports
`false` the returned distance is `0`. -/
theorem rectangle_distance (widthM heightM centerLon centerLat pointLon pointLat : ℝ) :
    ((geohashGetDistanceIfInRectangle widthM heightM centerLon centerLat
          pointLon pointLat).2 = true →
      (geohashGetDistanceIfInRectangle widthM heightM centerLon centerLat
          pointLon pointLat).1 = geohashGetDistance centerLon centerLat pointLon pointLat) ∧
    ((geohashGetDistanceIfInRectangle widthM heightM centerLon centerLat
          pointLon pointLat).2 = false →
      (geohashGetDistanceIfInRectangle widthM heightM centerLon centerLat
          pointLon pointLat).1 = 0) := by
  simp only [geohashGetDistanceIfInRectangle]
  split_ifs <;> simp

/-- Witness of C9 on the fixture of the rectangle check: the point at
longitude `0`, latitude `0.1` is inside and its distance is the one
`geohashGetDistance` gives. -/
theorem rectangle_distance_witness :
    (geohashGetDistanceIfInRectangle 200000 200000 0 0 0 0.1).2 = true ∧
      (geohashGetDistanceIfInRectangle 200000 200000 0 0 0 0.1).1 =
        geohashGetDistance 0 0 0 0.1 :=
  ⟨rectangle_fixture_inside,
    (rectangle_distance 200000 200000 0 0 0 0.1).1 rectangle_fixture_inside⟩

/-- C10: the latitude short-circuit: when `EarthRadius` times the absolute
latitude difference in radians exceeds `heightM / 2` the result is
`(0, false)`, whatever the width and the longitudes are. -/
theorem rectangle_lat_short_circuit
    (widthM heightM centerLon centerLat pointLon pointLat : ℝ)
    (h : EarthRadius * |deg2rad centerLat - deg2rad pointLat| > heightM / 2) :
    geohashGetDistanceIfInRectangle widthM heightM centerLon centerLat pointLon pointLat =
      (0, false) := by
  have h' : geohashGetLatDistance pointLat centerLat > heightM / 2 := h
  simp only [geohashGetDistanceIfInRectangle]
  rw [if_pos h']

/-- Witness of C10: for the center `(0, 0)` and a box of `200000` by
`200000` the point at longitude `0`, latitude `5` is reported outside by the
latitude check. -/
theorem rectangle_lat_short_circuit_witness :
    geohashGetDistanceIfInRectangle 200000 200000 0 0 0 5 = (0, false) :=
  rectangle_lat_short_circuit 200000 200000 0 0 0 5 (by
    have e : EarthRadius * |deg2rad 0 - deg2rad 5| = geohashGetLatDistance 5 0 := rfl
    rw [e, geohashGetLatDistance_zero_right, abs_of_nonneg (by norm_num)]
    have := Real.pi_gt_three
    norm_num
    linarith)

/-! ## Claims about `toGeohash` and `fromGeohash` -/

/-- C13: for latitudes of `[-90, 90]` and longitudes of `[-180, 180]`,
`geohashGetDistance lon1 lat1 lon2 lat2` equals the haversine reference
`distance lat1 lon1 lat2 lon2`, on the branch `v = 0` as on the other. -/
theorem geohashGetDistance_eq_distance (lon1 lat1 lon2 lat2 : ℝ)
    (h1 : -90 ≤ lat1 ∧ lat1 ≤ 90) (h2 : -90 ≤ lat2 ∧ lat2 ≤ 90)
    (_g1 : -180 ≤ lon1 ∧ lon1 ≤ 180) (_g2 : -180 ≤ lon2 ∧ lon2 ≤ 180) :
    geohashGetDistance lon1 lat1 lon2 lat2 = distance lat1 lon1 lat2 lon2 ∧
      distance lat1 lon1 lat2 lon2 =
        2 * EarthRadius * Real.arcsin (Real.sqrt
          (hsin (lat2 * Real.pi / 180 - lat1 * Real.pi / 180) +
            Real.cos (lat1 * Real.pi / 180) * Real.cos (lat2 * Real.pi / 180) *
              hsin (lon2 * Real.pi / 180 - lon1 * Real.pi / 180))) := by
  refine ⟨?_, rfl⟩
  rw [geohashGetDistance_eq]
  split_ifs with hv
  · symm
    apply distance_eq_latDistance_of_distanceH h1 h2
    apply distanceH_of_mul_eq_zero
    rw [deg2rad_eq, deg2rad_eq] at hv
    simp only [hsin, hv]
    ring
  · rw [geohashGetDistanceA_eq]
    simp only [distance, EarthRadius]
    norm_num

/-- Witness of C13 on the branch `v = 0`, reached by the two valid
longitudes `-180` and `180`: the shortcut agrees with `distance` between the
latitudes `-90` and `90`. -/
theorem geohashGetDistance_eq_distance_witness :
    Real.sin ((deg2rad 180 - deg2rad (-180)) / 2) = 0 ∧
      geohashGetDistance (-180) (-90) 180 90 = distance (-90) (-180) 90 180 :=
  ⟨by
    have e : (deg2rad 180 - deg2rad (-180)) / 2 = Real.pi := by
      rw [deg2rad_eq, deg2rad_eq]
      ring
    rw [e, Real.sin_pi],
   (geohashGetDistance_eq_distance (-180) (-90) 180 90 (by norm_num) (by norm_num)
    (by norm_num) (by norm_num)).1⟩

/-! ## Further claims about `geohashGetDistanceIfInRectangle` -/

/-- C15: box monotonicity: when `geohashGetDistanceIfInRectangle` returns
`(d, true)` for a box of `w` by `h`, it returns the same `(d, true)` for the
same center and point and every box of `w' ≥ w` by `h' ≥ h`. -/
theorem rectangle_mono (w h w' h' x1 y1 x2 y2 d : ℝ)
    (hr : geohashGetDistanceIfInRectangle w h x1 y1 x2 y2 = (d, true))
    (hw : w' ≥ w) (hh : h' ≥ h) :
    geohashGetDistanceIfInRectangle w' h' x1 y1 x2 y2 = (d, true) := by
  have hb : (geohashGetDistanceIfInRectangle w h x1 y1 x2 y2).2 = true := by rw [hr]
  have hc := (rectangle_snd_iff w h x1 y1 x2 y2).mp hb
  have e := rectangle_eq_of_le hc.1 hc.2
  rw [hr] at e
  rw [rectangle_eq_of_le (by linarith [hc.1]) (by linarith [hc.2])]
  exact e.symm

/-- Witness of C15: the point at longitude `0`, latitude `0.1` is inside the
box of `200000` by `200000` around `(0, 0)`, and inside the box of `300000`
by `250000` with the same distance. -/
theorem rectangle_mono_witness :
    geohashGetDistanceIfInRectangle 300000 250000 0 0 0 0.1 =
      (geohashGetDistance 0 0 0 0.1, true) :=
  rectangle_mono 200000 200000 300000 250000 0 0 0 0.1 (geohashGetDistance 0 0 0 0.1)
    (rectangle_eq_of_le
      (by
        have := latDistance_fixture_le
        norm_num
        linarith)
      (by
        rw [geohashGetDistance_same_lon, geohashGetLatDistance_self]
        norm_num))
    (by norm_num) (by norm_num)

/-- C16: the center is inside its own box: for a width and a height that are
not negative `geohashGetDistanceIfInRectangle` returns `(0, true)` for the
center itself; for a negative width or a negative height it returns
`(0, false)` for every center and point. -/
theorem rectangle_center :
    (∀ widthM heightM lon lat : ℝ, 0 ≤ widthM → 0 ≤ heightM →
      geohashGetDistanceIfInRectangle widthM heightM lon lat lon lat = (0, true)) ∧
    (∀ widthM heightM x1 y1 x2 y2 : ℝ, widthM < 0 ∨ heightM < 0 →
      geohashGetDistanceIfInRectangle widthM heightM x1 y1 x2 y2 = (0, false)) := by
  constructor
  · intro w h lon lat hw hh
    have e : geohashGetDistance lon lat lon lat = 0 := by
      rw [geohashGetDistance_same_lon, geohashGetLatDistance_self]
    have := @rectangle_eq_of_le w h lon lat lon lat
      (by rw [geohashGetLatDistance_self]; linarith) (by rw [e]; linarith)
    rw [this, e]
  · intro w h x1 y1 x2 y2 hn
    apply rectangle_eq_of_lt
    rcases hn with hn | hn
    · right
      have := geohashGetDistance_nonneg x2 y2 x1 y2
      linarith
    · left
      have := geohashGetLatDistance_nonneg y2 y1
      linarith

/-- Witness of C16: the center `(13, 52)` is inside its box of `0` by `0`,
and no point is inside a box of width `-1`. -/
theorem rectangle_center_witness :
    geohashGetDistanceIfInRectangle 0 0 13 52 13 52 = (0, true) ∧
      geohashGetDistanceIfInRectangle (-1) 200000 0 0 0 0 = (0, false) :=
  ⟨rectangle_center.1 0 0 13 52 (le_refl 0) (le_refl 0),
    rectangle_center.2 (-1) 200000 0 0 0 0 (Or.inl (by norm_num))⟩

end Miniredis
